import Mathlib

/-!
Verification of the obsidian-pebbledash core against its specification.

The development shallowly embeds the parts of the TypeScript source that the
checked properties concern:

* `src/yamlAdapter.ts` — `parseDashFile` / `createEmptyDashFile`, modelled over
  a type of JavaScript values (`JSVal`).  The YAML parser itself (`yaml.load`
  from the external js-yaml package) is represented by its outcome: either a
  parsed JavaScript value or a raised `YAMLException`.
* `src/fileTracker.ts` — the `FileTracker` class as a state machine over an
  explicit state record; dashboard persistence is modelled at parsed
  granularity (`DashFile`), with `serializeDashFile`/`parseDashFile` acting as
  the round-tripping serialization collaborator of spec section 6.
* `src/settingsResolver.ts` — the three-tier settings cascade.
* `src/DashboardView/widgetHelpers.ts` and
  `src/DashboardView/widgetBridge.ts` — the renderer lifecycle, with renderer
  instances tracked by numeric identity.
* `src/widgets` (registry module) — `createWidgetRegistry` / `getWidgetFactory`.
-/

namespace Pebbledash

/-- JavaScript values as produced by the YAML parser.  Numbers are modelled as
integers (no claim involves floating-point arithmetic).  A JavaScript array can
carry ordinary string-keyed properties besides its elements, so `arr` has a
property list of its own. -/
inductive JSVal where
  | undefinedVal : JSVal
  | nul : JSVal
  | bool (b : Bool) : JSVal
  | num (n : Int) : JSVal
  | str (s : String) : JSVal
  | arr (elems : List JSVal) (props : List (String × JSVal)) : JSVal
  | obj (props : List (String × JSVal)) : JSVal
deriving Repr

/-- JavaScript truthiness test, negated: `!v` in the source. -/
def jsFalsy : JSVal → Bool
  | .undefinedVal => true
  | .nul => true
  | .bool b => !b
  | .num n => n == 0
  | .str s => s == ""
  | .arr _ _ => false
  | .obj _ => false

/-- The test `typeof v === 'object'`; note that `typeof null` is `'object'`
in JavaScript. -/
def jsIsObjectType : JSVal → Bool
  | .nul => true
  | .arr _ _ => true
  | .obj _ => true
  | _ => false

/-- The test `Array.isArray(v)`. -/
def jsIsArray : JSVal → Bool
  | .arr _ _ => true
  | _ => false

/-- Property lookup on a JavaScript property list: first binding wins the
lookup (a JavaScript object holds at most one binding per key; the model keeps
the first). -/
def propGet (props : List (String × JSVal)) (k : String) : JSVal :=
  match props.find? (fun p => p.1 == k) with
  | some p => p.2
  | none => .undefinedVal

/-- Property update: replace the binding in place when the key is present,
append otherwise — JavaScript object key-order semantics. -/
def propSet (props : List (String × JSVal)) (k : String) (v : JSVal) :
    List (String × JSVal) :=
  if (props.find? (fun p => p.1 == k)).isSome then
    props.map (fun p => if p.1 == k then (k, v) else p)
  else
    props ++ [(k, v)]

/-- Reading `v[k]` (reading a property of a primitive yields `undefined` for
the properties this code reads). -/
def jsGet : JSVal → String → JSVal
  | .obj props, k => propGet props k
  | .arr _ props, k => propGet props k
  | _, _ => .undefinedVal

/-- Writing `v[k] = x`; on primitives the write is silently dropped (the
source never does this). -/
def jsSet : JSVal → String → JSVal → JSVal
  | .obj props, k, x => .obj (propSet props k x)
  | .arr es props, k, x => .arr es (propSet props k x)
  | v, _, _ => v

/-- The value built by `createEmptyDashFile` in `src/yamlAdapter.ts`:
version 2 and a single full-size empty tile. -/
def createEmptyDashFile : JSVal :=
  .obj [("version", .num 2),
        ("tiles", .arr
          [.obj [("id", .str "tile-1"),
                 ("x", .num 0),
                 ("y", .num 0),
                 ("width", .num 100),
                 ("height", .num 100),
                 ("meta", .obj [("widgetType", .str "empty")])]] [])]

/-- The structural fix-ups `parseDashFile` applies to the value returned by
`yaml.load`: fall back to `createEmptyDashFile()` when the value is falsy or
not object-typed, default a falsy `version` to `2`, and default a non-array
`tiles` to `[]`. -/
def parseDashFileFix (parsed : JSVal) : JSVal :=
  if jsFalsy parsed || !jsIsObjectType parsed then
    createEmptyDashFile
  else
    let v1 := if jsFalsy (jsGet parsed "version") then
        jsSet parsed "version" (.num 2)
      else parsed
    let v2 := if !jsIsArray (jsGet v1 "tiles") then
        jsSet v1 "tiles" (.arr [] [])
      else v1
    v2

/-- `parseDashFile(content)` in `src/yamlAdapter.ts`.  The call
`yaml.load(content)` is external (js-yaml): it either returns a JavaScript
value or raises a `YAMLException`; the argument here is that outcome.  The
source applies its fix-ups to a returned value and has no try/catch, so a
raised exception propagates to the caller unchanged. -/
def parseDashFile (loadOutcome : Except String JSVal) : Except String JSVal :=
  match loadOutcome with
  | .error e => .error e
  | .ok v => .ok (parseDashFileFix v)

/-! Typed data model (`src/types.ts`) -/

/-- `LinkBehavior` from `src/types.ts`. -/
inductive LinkBehavior where
  | newTab | replaceDashboard | replaceTile
deriving Repr, DecidableEq

/-- `ScrollBehavior` from `src/types.ts`. -/
inductive ScrollBehavior where
  | scroll | clip | fit
deriving Repr, DecidableEq

/-- `InteractionMode` from `src/types.ts`. -/
inductive InteractionMode where
  | always | doubleClick | never
deriving Repr, DecidableEq

/-- `WidgetType` from `src/types.ts` (the two built-in widget types). -/
inductive WidgetType where
  | empty | embedded
deriving Repr, DecidableEq

/-- Border style literals used by the settings types. -/
inductive BorderStyle where
  | solid | dashed | dotted | hidden
deriving Repr, DecidableEq

/-- `ObsidianTileMeta` from `src/types.ts`.  Every known field is optional
here: the resolver and the tracker read each one through `?.`/`??`, and
parsed documents may lack any of them.  `extra` is the open extension map of
the index signature (arbitrary further keys). -/
structure ObsidianTileMeta where
  widgetType : Option WidgetType := Option.none
  contentRef : Option String := Option.none
  showHeader : Option Bool := Option.none
  linkBehavior : Option LinkBehavior := Option.none
  scrollBehavior : Option ScrollBehavior := Option.none
  interactionMode : Option InteractionMode := Option.none
  background : Option String := Option.none
  padding : Option String := Option.none
  seamlessNested : Option Bool := Option.none
  showEmbedLink : Option Bool := Option.none
  extra : List (String × JSVal) := []
deriving Repr

/-- `DashboardSettings.border` from `src/types.ts` (all sub-fields optional). -/
structure DashBorderSettings where
  width : Option Int := Option.none
  style : Option BorderStyle := Option.none
  color : Option String := Option.none
deriving Repr

/-- `DashboardSettings.animation` from `src/types.ts`. -/
structure DashAnimationSettings where
  enabled : Option Bool := Option.none
  duration : Option Int := Option.none
deriving Repr

/-- `DashboardSettings` from `src/types.ts` — the sparse dashboard-level
settings stored in a `.dash` file. -/
structure DashboardSettings where
  cssclass : Option String := Option.none
  gutter : Option Int := Option.none
  border : Option DashBorderSettings := Option.none
  animation : Option DashAnimationSettings := Option.none
  linkBehavior : Option LinkBehavior := Option.none
  showHeaders : Option Bool := Option.none
  scrollBehavior : Option ScrollBehavior := Option.none
  interactionMode : Option InteractionMode := Option.none
  seamlessNested : Option Bool := Option.none
  showEmbedLink : Option Bool := Option.none
  redistributeEqually : Option Bool := Option.none
deriving Repr

/-- `DashTile` from `src/types.ts`.  `constraints` carries unvalidated data
from `@pebbledash/core`, kept as a raw JavaScript value. -/
structure DashTile where
  id : String
  x : Int
  y : Int
  width : Int
  height : Int
  locked : Option Bool := Option.none
  meta : Option ObsidianTileMeta := Option.none
  constraints : Option JSVal := Option.none
deriving Repr

/-- `DashFile` from `src/types.ts` — the parsed form of a `.dash` file. -/
structure DashFile where
  settings : Option DashboardSettings := Option.none
  version : Int
  tiles : List DashTile
deriving Repr

/-- `PebbledashSettings` from `src/types.ts` — the vault-level defaults,
always fully defined. -/
structure PebbledashSettings where
  minTileWidth : Int
  minTileHeight : Int
  maxTileWidth : Int
  maxTileHeight : Int
  gutter : Int
  borderWidth : Int
  borderStyle : BorderStyle
  borderColor : String
  showHeaders : Bool
  scrollBehavior : ScrollBehavior
  linkBehavior : LinkBehavior
  interactionMode : InteractionMode
  animationEnabled : Bool
  animationDuration : Int
  seamlessNested : Bool
  showEmbedLink : Bool
  redistributeEqually : Bool
  interactiveSelectors : String
deriving Repr

/-! Settings cascade resolver (`src/settingsResolver.ts`) -/

/-- The JavaScript operator `a ?? b` for a possibly-absent left operand and a
present right operand. -/
def jsNC (a : Option α) (b : α) : α :=
  match a with
  | some x => x
  | Option.none => b

/-- The JavaScript operator `a ?? b` when both operands may be absent. -/
def jsNCO (a b : Option α) : Option α :=
  match a with
  | some x => some x
  | Option.none => b

/-- `EffectiveTileSettings` from `src/settingsResolver.ts`: all cascading
values defined, tile-only fields kept optional as in the source. -/
structure EffectiveTileSettings where
  showHeader : Bool
  linkBehavior : LinkBehavior
  scrollBehavior : ScrollBehavior
  interactionMode : InteractionMode
  background : Option String
  padding : Option String
  widgetType : WidgetType
  contentRef : Option String
  seamlessNested : Bool
  showEmbedLink : Bool
deriving Repr

/-- `EffectiveDashboardConfig` from `src/settingsResolver.ts`. -/
structure EffectiveDashboardConfig where
  minTile : Int × Int
  maxTileWidth : Int
  maxTileHeight : Int
  gutter : Int
  border : Int × BorderStyle × String
  animation : Bool × Int
  showHeaders : Bool
  linkBehavior : LinkBehavior
  scrollBehavior : ScrollBehavior
  seamlessNested : Bool
  showEmbedLink : Bool
  redistributeEqually : Bool
  cssclass : Option String
deriving Repr

/-- `resolveEffectiveTileSettings` from `src/settingsResolver.ts`: the
tile → dashboard → vault cascade, translated clause for clause. -/
def resolveEffectiveTileSettings (vaultSettings : PebbledashSettings)
    (dashboardSettings : Option DashboardSettings)
    (tileMeta : Option ObsidianTileMeta) : EffectiveTileSettings :=
  { showHeader := jsNC (jsNCO (tileMeta.bind (·.showHeader))
      (dashboardSettings.bind (·.showHeaders))) vaultSettings.showHeaders
    linkBehavior := jsNC (jsNCO (tileMeta.bind (·.linkBehavior))
      (dashboardSettings.bind (·.linkBehavior))) vaultSettings.linkBehavior
    scrollBehavior := jsNC (jsNCO (tileMeta.bind (·.scrollBehavior))
      (dashboardSettings.bind (·.scrollBehavior))) vaultSettings.scrollBehavior
    interactionMode := jsNC (jsNCO (tileMeta.bind (·.interactionMode))
      (dashboardSettings.bind (·.interactionMode))) vaultSettings.interactionMode
    seamlessNested := jsNC (jsNCO (tileMeta.bind (·.seamlessNested))
      (dashboardSettings.bind (·.seamlessNested))) vaultSettings.seamlessNested
    showEmbedLink := jsNC (jsNCO (tileMeta.bind (·.showEmbedLink))
      (dashboardSettings.bind (·.showEmbedLink))) vaultSettings.showEmbedLink
    background := tileMeta.bind (·.background)
    padding := tileMeta.bind (·.padding)
    widgetType := jsNC (tileMeta.bind (·.widgetType)) WidgetType.empty
    contentRef := tileMeta.bind (·.contentRef) }

/-- `resolveEffectiveDashboardConfig` from `src/settingsResolver.ts`: the
dashboard → vault cascade, with the composite border and animation settings
cascaded per sub-field. -/
def resolveEffectiveDashboardConfig (vaultSettings : PebbledashSettings)
    (dashboardSettings : Option DashboardSettings) : EffectiveDashboardConfig :=
  { minTile := (vaultSettings.minTileWidth, vaultSettings.minTileHeight)
    maxTileWidth := vaultSettings.maxTileWidth
    maxTileHeight := vaultSettings.maxTileHeight
    gutter := jsNC (dashboardSettings.bind (·.gutter)) vaultSettings.gutter
    border :=
      (jsNC ((dashboardSettings.bind (·.border)).bind (·.width)) vaultSettings.borderWidth,
       jsNC ((dashboardSettings.bind (·.border)).bind (·.style)) vaultSettings.borderStyle,
       jsNC ((dashboardSettings.bind (·.border)).bind (·.color)) vaultSettings.borderColor)
    animation :=
      (jsNC ((dashboardSettings.bind (·.animation)).bind (·.enabled)) vaultSettings.animationEnabled,
       jsNC ((dashboardSettings.bind (·.animation)).bind (·.duration)) vaultSettings.animationDuration)
    showHeaders := jsNC (dashboardSettings.bind (·.showHeaders)) vaultSettings.showHeaders
    linkBehavior := jsNC (dashboardSettings.bind (·.linkBehavior)) vaultSettings.linkBehavior
    scrollBehavior := jsNC (dashboardSettings.bind (·.scrollBehavior)) vaultSettings.scrollBehavior
    seamlessNested := jsNC (dashboardSettings.bind (·.seamlessNested)) vaultSettings.seamlessNested
    showEmbedLink := jsNC (dashboardSettings.bind (·.showEmbedLink)) vaultSettings.showEmbedLink
    redistributeEqually := jsNC (dashboardSettings.bind (·.redistributeEqually))
      vaultSettings.redistributeEqually
    cssclass := dashboardSettings.bind (·.cssclass) }

/-! File tracker (`src/fileTracker.ts`)

JavaScript `Map` and `Set` preserve insertion order; they are modelled as
association lists and duplicate-free lists with order-preserving operations.
-/

/-- `DASH_EXTENSION` from `src/constants.ts`. -/
def dashExtension : String := "dash"

/-- `Set.add`: append when absent, keep the position when present. -/
def setAdd (s : List String) (x : String) : List String :=
  if x ∈ s then s else s ++ [x]

/-- `Set.delete` / deleting one key from every set. -/
def setDel (s : List String) (x : String) : List String :=
  s.filter (fun y => y ≠ x)

/-- `Map.get`. -/
def mapGet (m : List (String × α)) (k : String) : Option α :=
  (m.find? (fun p => p.1 = k)).map (·.2)

/-- `Map.set`: replace in place when the key exists, append otherwise. -/
def mapSet (m : List (String × α)) (k : String) (v : α) : List (String × α) :=
  if (m.find? (fun p => p.1 = k)).isSome then
    m.map (fun p => if p.1 = k then (k, v) else p)
  else
    m ++ [(k, v)]

/-- `Map.delete`. -/
def mapDel (m : List (String × α)) (k : String) : List (String × α) :=
  m.filter (fun p => p.1 ≠ k)

/-- One round of invoking the registered callbacks of the tracker.  `change`
is a `FileChangeCallback` round `(dashboardPath, oldPath, newPath?)` — the
new path is absent for a deletion; `modify` is a `FileModifyCallback` round
`(filePath, dashboardPaths)`. -/
inductive TrackerNotif where
  | change (dashboardPath oldPath : String) (newPath : Option String)
  | modify (filePath : String) (dashboardPaths : List String)
deriving Repr, DecidableEq

/-- State of a `FileTracker` together with the vault it observes.  Dashboard
file contents are carried at parsed granularity (`DashFile`):
`serializeDashFile`/`parseDashFile` form the round-tripping serialization
collaborator of spec section 6, so a read in `updateDashboardReferences`
yields the stored `DashFile` directly.  `listening` models the registered
`eventRefs` (`start` subscribes, `stop` unsubscribes).
`debounceWindowEnd` is the state of the debounced modify handler.

Modelled from the spec: the `debounce` primitive itself lives in the external
`obsidian` package; per spec section 5 and the constructor comment in
`src/fileTracker.ts` it is leading-edge — the first call fires immediately
and opens a 500 ms window, and calls within the window are suppressed without
restarting it. -/
structure TrackerState where
  vault : List (String × DashFile)
  index : List (String × List String)
  listening : Bool
  debounceWindowEnd : Option Nat
deriving Repr

/-- A file as the vault hands it to event handlers: its path, its extension,
and whether it is a regular file (`instanceof TFile`). -/
structure VFile where
  path : String
  extension : String
  isTFile : Bool
deriving Repr

/-- `addReference` from `src/fileTracker.ts`. -/
def addReference (index : List (String × List String)) (filePath dashboardPath : String) :
    List (String × List String) :=
  match mapGet index filePath with
  | Option.none => mapSet index filePath [dashboardPath]
  | some refs => mapSet index filePath (setAdd refs dashboardPath)

/-- `clearDashboardFromIndex` from `src/fileTracker.ts`: delete the dashboard
from every entry's set, then drop the entries whose set became empty. -/
def clearDashboardFromIndex (index : List (String × List String)) (dashboardPath : String) :
    List (String × List String) :=
  let cleared := index.map (fun p => (p.1, setDel p.2 dashboardPath))
  cleared.filter (fun p => p.2 ≠ [])

/-- `updateDashboardPath` from `src/fileTracker.ts`: relabel the dashboard's
membership in every entry. -/
def updateDashboardPath (index : List (String × List String)) (oldPath newPath : String) :
    List (String × List String) :=
  index.map (fun p =>
    (p.1, if oldPath ∈ p.2 then setAdd (setDel p.2 oldPath) newPath else p.2))

/-- The loop body of `indexDashboard`: add each tile's truthy `contentRef`
(the source guards with `if (contentRef)`, so an empty string is skipped). -/
def addTileRefs (index : List (String × List String)) (dashboardPath : String)
    (tiles : List DashTile) : List (String × List String) :=
  tiles.foldl (fun acc tile =>
    match tile.meta.bind (·.contentRef) with
    | some r => if r ≠ "" then addReference acc r dashboardPath else acc
    | Option.none => acc) index

/-- `indexDashboard` from `src/fileTracker.ts`: read and parse the file,
replace the dashboard's prior contribution with its current references.  A
failing read (file absent) is caught and leaves the state unchanged. -/
def indexDashboard (st : TrackerState) (path : String) : TrackerState :=
  match mapGet st.vault path with
  | Option.none => st
  | some df =>
    let idx := clearDashboardFromIndex st.index path
    { st with index := addTileRefs idx path df.tiles }

/-- `indexAllDashboards` from `src/fileTracker.ts`: clear the index and
re-index every `.dash` file of the vault (the model's vault holds exactly the
dash files). -/
def indexAllDashboards (st : TrackerState) : TrackerState :=
  (st.vault.map (·.1)).foldl indexDashboard { st with index := [] }

/-- `removeDashboard` from `src/fileTracker.ts`. -/
def removeDashboard (st : TrackerState) (dashboardPath : String) : TrackerState :=
  { st with index := clearDashboardFromIndex st.index dashboardPath }

/-- `getDashboardsReferencing` from `src/fileTracker.ts`. -/
def getDashboardsReferencing (st : TrackerState) (filePath : String) : List String :=
  match mapGet st.index filePath with
  | some refs => refs
  | Option.none => []

/-- The tile rewrite inside `updateDashboardReferences`: when
`tile.meta?.contentRef === oldFilePath`, set `tile.meta.contentRef` to the
new path; otherwise leave the tile alone. -/
def rewriteTile (oldFilePath newFilePath : String) (tile : DashTile) : DashTile :=
  if tile.meta.bind (·.contentRef) = some oldFilePath then
    { tile with meta := tile.meta.map (fun m => { m with contentRef := some newFilePath }) }
  else
    tile

/-- `updateDashboardReferences` from `src/fileTracker.ts`: re-read the
dashboard from the vault, rewrite matching tiles, and write back only when at
least one tile changed.  A path that does not resolve to a file returns with
no effect. -/
def updateDashboardReferences (st : TrackerState)
    (dashboardPath oldFilePath newFilePath : String) : TrackerState :=
  match mapGet st.vault dashboardPath with
  | Option.none => st
  | some df =>
    let modified := df.tiles.any (fun t => t.meta.bind (·.contentRef) = some oldFilePath)
    let rewritten := { df with tiles := df.tiles.map (rewriteTile oldFilePath newFilePath) }
    if modified then
      { st with vault := mapSet st.vault dashboardPath rewritten }
    else
      st

/-- `handleRename` from `src/fileTracker.ts`.  The renamed file (with its new
path) and the old path arrive from the vault event.  Returns the new state
and the emitted callback rounds. -/
def handleRename (st : TrackerState) (file : VFile) (oldPath : String) :
    TrackerState × List TrackerNotif :=
  if !file.isTFile then (st, [])
  else if file.extension = dashExtension then
    ({ st with index := updateDashboardPath st.index oldPath file.path }, [])
  else
    match mapGet st.index oldPath with
    | Option.none => (st, [])
    | some refs =>
      if refs = [] then (st, [])
      else
        let st1 := refs.foldl
          (fun acc d => updateDashboardReferences acc d oldPath file.path) st
        let notifs := refs.map (fun d => TrackerNotif.change d oldPath (some file.path))
        let idx1 := mapDel st1.index oldPath
        let idx2 := refs.foldl (fun acc d => addReference acc file.path d) idx1
        ({ st1 with index := idx2 }, notifs)

/-- `handleDelete` from `src/fileTracker.ts`. -/
def handleDelete (st : TrackerState) (file : VFile) :
    TrackerState × List TrackerNotif :=
  if !file.isTFile then (st, [])
  else if file.extension = dashExtension then
    ({ st with index := clearDashboardFromIndex st.index file.path }, [])
  else
    match mapGet st.index file.path with
    | Option.none => (st, [])
    | some refs =>
      if refs = [] then (st, [])
      else
        ({ st with index := mapDel st.index file.path },
         refs.map (fun d => TrackerNotif.change d file.path Option.none))

/-- `notifyModifyCallbacks` from `src/fileTracker.ts`: re-read the index and
emit one modify round when the file still has referencing dashboards. -/
def notifyModifyCallbacks (st : TrackerState) (filePath : String) : List TrackerNotif :=
  match mapGet st.index filePath with
  | Option.none => []
  | some refs => if refs = [] then [] else [TrackerNotif.modify filePath refs]

/-- The debounced wrapper around `notifyModifyCallbacks` (see the modelling
note on `TrackerState.debounceWindowEnd`): fire on the leading edge and open
a 500 ms window; a call strictly inside the window is suppressed. -/
def debouncedModifyHandler (st : TrackerState) (now : Nat) (filePath : String) :
    TrackerState × List TrackerNotif :=
  match st.debounceWindowEnd with
  | some e =>
    if now < e then (st, [])
    else ({ st with debounceWindowEnd := some (now + 500) }, notifyModifyCallbacks st filePath)
  | Option.none =>
    ({ st with debounceWindowEnd := some (now + 500) }, notifyModifyCallbacks st filePath)

/-- `handleModify` from `src/fileTracker.ts`: dash files are skipped,
unreferenced files are skipped, otherwise the debounced handler runs.
`now` is the arrival time of the vault event. -/
def handleModify (st : TrackerState) (file : VFile) (now : Nat) :
    TrackerState × List TrackerNotif :=
  if !file.isTFile then (st, [])
  else if file.extension = dashExtension then (st, [])
  else
    match mapGet st.index file.path with
    | Option.none => (st, [])
    | some refs =>
      if refs = [] then (st, [])
      else debouncedModifyHandler st now file.path

/-- `start` from `src/fileTracker.ts`: subscribe to the vault events. -/
def startTracker (st : TrackerState) : TrackerState :=
  { st with listening := true }

/-- `stop` from `src/fileTracker.ts`: release every event subscription. -/
def stopTracker (st : TrackerState) : TrackerState :=
  { st with listening := false }

/-- A vault event as delivered to the tracker's subscriptions. -/
inductive VaultEvent where
  | rename (file : VFile) (oldPath : String)
  | delete (file : VFile)
  | modify (file : VFile) (now : Nat)
deriving Repr

/-- Dispatch of one vault event: the handlers run only while the tracker's
subscriptions are registered. -/
def processEvent (st : TrackerState) (ev : VaultEvent) :
    TrackerState × List TrackerNotif :=
  if !st.listening then (st, [])
  else
    match ev with
    | .rename file oldPath => handleRename st file oldPath
    | .delete file => handleDelete st file
    | .modify file now => handleModify st file now

/-- Serialized processing of a list of vault events, collecting every emitted
callback round in order. -/
def runEvents (st : TrackerState) : List VaultEvent → TrackerState × List TrackerNotif
  | [] => (st, [])
  | ev :: evs =>
    let r := processEvent st ev
    let rest := runEvents r.1 evs
    (rest.1, r.2 ++ rest.2)

/-! Renderer lifecycle (`src/DashboardView/widgetHelpers.ts`,
`src/DashboardView/widgetBridge.ts`)

Widget instances are identified by the order of their creation (`nextId`);
`mounted` is the collection of currently live (mounted, not yet unmounted)
instances, each paired with its cell. -/

/-- Lifecycle state of one open view: the `activeWidgets` map of the view
context, plus the set of live renderer instances. -/
structure ViewState where
  activeWidgets : List (String × Nat)
  mounted : List (String × Nat)
  nextId : Nat
deriving Repr

/-- The view state of a freshly opened view. -/
def initView : ViewState :=
  { activeWidgets := [], mounted := [], nextId := 0 }

/-- Number of live renderer instances for one cell. -/
def liveInstances (vs : ViewState) (tileId : String) : Nat :=
  (vs.mounted.filter (fun p => p.1 = tileId)).length

/-- `updateWidgetForTile` from `src/DashboardView/widgetHelpers.ts`: unmount
and drop the cell's registered widget when one exists, then — when the tile
element is found in the DOM — create, mount and register a fresh widget.
`elFound` is the outcome of the `querySelector` for the tile element. -/
def updateWidgetForTile (vs : ViewState) (tileId : String) (elFound : Bool) : ViewState :=
  let vs1 :=
    match mapGet vs.activeWidgets tileId with
    | some i =>
      { vs with mounted := vs.mounted.filter (fun p => p ≠ (tileId, i)),
                activeWidgets := mapDel vs.activeWidgets tileId }
    | Option.none => vs
  if elFound then
    { vs1 with mounted := vs1.mounted ++ [(tileId, vs1.nextId)],
               activeWidgets := mapSet vs1.activeWidgets tileId vs1.nextId,
               nextId := vs1.nextId + 1 }
  else vs1

/-- One flattened sequence of `updateWidgetForTile` calls. -/
def runHelperSeq (vs : ViewState) (steps : List (String × Bool)) : ViewState :=
  steps.foldl (fun acc step => updateWidgetForTile acc step.1 step.2) vs

/-- `refreshAllWidgets` from `src/DashboardView/widgetHelpers.ts`: one
`updateWidgetForTile` call per tile of the open document. -/
def refreshAllWidgets (vs : ViewState) (tiles : List (String × Bool)) : ViewState :=
  runHelperSeq vs tiles

/-- `mount()` of a fresh bridge instance from
`src/DashboardView/widgetBridge.ts` (`createWidgetBridgeInstance` builds the
widget, and the renderer then calls `mount()`): `widget.mount()` followed by
`activeWidgets.set(tileId, widget)` — with no unmount of a previously
registered widget for the cell. -/
def bridgeMount (vs : ViewState) (tileId : String) : ViewState :=
  { vs with mounted := vs.mounted ++ [(tileId, vs.nextId)],
            activeWidgets := mapSet vs.activeWidgets tileId vs.nextId,
            nextId := vs.nextId + 1 }

/-- `unmount()` of a bridge instance holding widget `instId`:
`widget.unmount()` followed by `activeWidgets.delete(tileId)`. -/
def bridgeUnmount (vs : ViewState) (tileId : String) (instId : Nat) : ViewState :=
  { vs with mounted := vs.mounted.filter (fun p => p ≠ (tileId, instId)),
            activeWidgets := mapDel vs.activeWidgets tileId }

/-! Widget registry (the widgets index module, `createWidgetRegistry`) -/

/-- Identity of a widget factory: the two built-in factories
(`createEmptyWidget`, `createEmbeddedLeafWidget`) or a custom one. -/
inductive WidgetFactoryRef where
  | emptyWidget : WidgetFactoryRef
  | embeddedLeafWidget : WidgetFactoryRef
  | custom (n : Nat) : WidgetFactoryRef
deriving Repr, DecidableEq

/-- A `WidgetRegistry` viewed as a key-to-factory lookup; `Option.none` means
the key is absent from the object. -/
def WidgetRegistryFn := String → Option WidgetFactoryRef

/-- `builtInWidgets` from the widgets index module: `empty` and `embedded`. -/
def builtInWidgets : WidgetRegistryFn := fun k =>
  if k = "empty" then some WidgetFactoryRef.emptyWidget
  else if k = "embedded" then some WidgetFactoryRef.embeddedLeafWidget
  else Option.none

/-- `createWidgetRegistry` from the widgets index module: the object spread
of `builtInWidgets` under `customWidgets`, so a custom binding wins on a
shared key.  A call with the argument omitted is a call with the empty
registry. -/
def createWidgetRegistry (customWidgets : WidgetRegistryFn) : WidgetRegistryFn :=
  fun k =>
    match customWidgets k with
    | some f => some f
    | Option.none => builtInWidgets k

/-- `getWidgetFactory` from the widgets index module:
the requested type, else the registry's `empty` factory, else
`createEmptyWidget`. -/
def getWidgetFactory (registry : WidgetRegistryFn) (widgetType : String) :
    WidgetFactoryRef :=
  jsNC (jsNCO (registry widgetType) (registry "empty")) WidgetFactoryRef.emptyWidget

/-! Specification-side definitions

These definitions restate the spec's own formulas, for comparison with the
definitions translated from the source. -/

/-- The spec's three-tier cascade law for a cell-effective field:
`effective(f) = c[f] ?? d[f] ?? g[f]`. -/
def specCascade (c d : Option α) (g : α) : α :=
  match c with
  | some x => x
  | Option.none =>
    match d with
    | some y => y
    | Option.none => g

/-- The spec's two-tier cascade law for a document-effective field:
`effective(f) = d[f] ?? g[f]`. -/
def specCascadeDoc (d : Option α) (g : α) : α :=
  match d with
  | some y => y
  | Option.none => g

/-- The reference-index invariant of spec section 3: no key is mapped to an
empty set of dashboards. -/
abbrev IndexGood (index : List (String × List String)) : Prop :=
  ∀ p ∈ index, p.2 ≠ []

/-- The renderer-lifecycle invariant: at most one live instance per cell, and
the `activeWidgets` map registers exactly the live instances. -/
def GoodView (vs : ViewState) : Prop :=
  (∀ c, liveInstances vs c ≤ 1) ∧
  (∀ c i, mapGet vs.activeWidgets c = some i ↔ (c, i) ∈ vs.mounted)

/-! Concrete fixtures for witnesses and counterexamples -/

/-- A tile embedding the given content reference. -/
def exTile (ref : String) : DashTile :=
  { id := "tile-1", x := 0, y := 0, width := 50, height := 50,
    meta := some { widgetType := some WidgetType.embedded, contentRef := some ref } }

/-- A one-tile dashboard document embedding the given content reference. -/
def exDash (ref : String) : DashFile :=
  { version := 2, tiles := [exTile ref] }

/-- A started tracker over two dashboards, each embedding one note, before
indexing. -/
def exStart : TrackerState :=
  startTracker
    { vault := [("boards/d1.dash", exDash "notes/a.md"),
                ("boards/d2.dash", exDash "notes/b.md")],
      index := [], listening := false, debounceWindowEnd := Option.none }

/-- The same tracker after the startup full scan. -/
def exIndexed : TrackerState :=
  indexAllDashboards exStart

/-- Every field of a tile meta except the content reference, bundled for
stating frame conditions. -/
def metaFrame (m : ObsidianTileMeta) :
    Option WidgetType × Option Bool × Option LinkBehavior × Option ScrollBehavior
      × Option InteractionMode × Option String × Option String × Option Bool
      × Option Bool × List (String × JSVal) :=
  (m.widgetType, m.showHeader, m.linkBehavior, m.scrollBehavior,
   m.interactionMode, m.background, m.padding, m.seamlessNested,
   m.showEmbedLink, m.extra)

/-! Library lemmas about the map and set operations -/

theorem jsNC_jsNCO_eq_specCascade (a b : Option α) (g : α) :
    jsNC (jsNCO a b) g = specCascade a b g := by
  cases a <;> cases b <;> rfl

theorem jsNC_eq_specCascadeDoc (a : Option α) (g : α) :
    jsNC a g = specCascadeDoc a g := by
  cases a <;> rfl

/-! Claims about the YAML adapter -/

/-- C5 — evidence for the code bug: the claim says `parseDashFile` never
raises for any input string, but the source calls `yaml.load` with no
try/catch, so whenever the YAML parser raises (js-yaml's `yaml.load` raises
`YAMLException` on syntactically invalid YAML such as the input string
consisting of one opening brace), `parseDashFile` propagates the exception
instead of returning the fallback document. -/
theorem parseDashFile_propagates_yaml_error :
    ∀ e : String, parseDashFile (Except.error e) = Except.error e :=
  fun _ => rfl

/-- C9: whenever the YAML parse yields `null` or a non-object value,
`parseDashFile` returns the fallback document — version 2 and exactly one
tile with id `tile-1`, geometry x=0, y=0, width=100, height=100 and widget
type `empty` — rather than a document with zero tiles. -/
theorem parse_fallback_document :
    ∀ v : JSVal, (v = JSVal.nul ∨ jsIsObjectType v = false) →
      parseDashFileFix v =
        JSVal.obj [("version", JSVal.num 2),
          ("tiles", JSVal.arr
            [JSVal.obj [("id", JSVal.str "tile-1"),
                        ("x", JSVal.num 0),
                        ("y", JSVal.num 0),
                        ("width", JSVal.num 100),
                        ("height", JSVal.num 100),
                        ("meta", JSVal.obj [("widgetType", JSVal.str "empty")])]] [])] := by
  intro v h
  cases v <;>
    simp_all [parseDashFileFix, jsFalsy, jsIsObjectType, createEmptyDashFile]

/-- Witness for C9 at the concrete non-object parse result `"hello"`. -/
theorem parse_fallback_document_witness :
    (JSVal.str "hello" = JSVal.nul ∨ jsIsObjectType (JSVal.str "hello") = false) ∧
    parseDashFileFix (JSVal.str "hello") =
        JSVal.obj [("version", JSVal.num 2),
          ("tiles", JSVal.arr
            [JSVal.obj [("id", JSVal.str "tile-1"),
                        ("x", JSVal.num 0),
                        ("y", JSVal.num 0),
                        ("width", JSVal.num 100),
                        ("height", JSVal.num 100),
                        ("meta", JSVal.obj [("widgetType", JSVal.str "empty")])]] [])] :=
  ⟨Or.inr rfl, parse_fallback_document (JSVal.str "hello") (Or.inr rfl)⟩

/-! Claim about the settings cascade -/

/-- C2: for every fully-defined vault settings `g`, possibly-absent dashboard
settings `d` and tile meta `c`, every cascading cell-effective field equals
`c[f] ?? d[f] ?? g[f]`, and every dashboard-effective field equals
`d[f] ?? g[f]`, independently for each sub-field of the composite border and
animation settings. -/
theorem cascade_law (g : PebbledashSettings) (d : Option DashboardSettings)
    (c : Option ObsidianTileMeta) :
    (resolveEffectiveTileSettings g d c).showHeader
      = specCascade (c.bind (·.showHeader)) (d.bind (·.showHeaders)) g.showHeaders
    ∧ (resolveEffectiveTileSettings g d c).linkBehavior
      = specCascade (c.bind (·.linkBehavior)) (d.bind (·.linkBehavior)) g.linkBehavior
    ∧ (resolveEffectiveTileSettings g d c).scrollBehavior
      = specCascade (c.bind (·.scrollBehavior)) (d.bind (·.scrollBehavior)) g.scrollBehavior
    ∧ (resolveEffectiveTileSettings g d c).interactionMode
      = specCascade (c.bind (·.interactionMode)) (d.bind (·.interactionMode)) g.interactionMode
    ∧ (resolveEffectiveTileSettings g d c).seamlessNested
      = specCascade (c.bind (·.seamlessNested)) (d.bind (·.seamlessNested)) g.seamlessNested
    ∧ (resolveEffectiveTileSettings g d c).showEmbedLink
      = specCascade (c.bind (·.showEmbedLink)) (d.bind (·.showEmbedLink)) g.showEmbedLink
    ∧ (resolveEffectiveDashboardConfig g d).gutter
      = specCascadeDoc (d.bind (·.gutter)) g.gutter
    ∧ (resolveEffectiveDashboardConfig g d).border.1
      = specCascadeDoc ((d.bind (·.border)).bind (·.width)) g.borderWidth
    ∧ (resolveEffectiveDashboardConfig g d).border.2.1
      = specCascadeDoc ((d.bind (·.border)).bind (·.style)) g.borderStyle
    ∧ (resolveEffectiveDashboardConfig g d).border.2.2
      = specCascadeDoc ((d.bind (·.border)).bind (·.color)) g.borderColor
    ∧ (resolveEffectiveDashboardConfig g d).animation.1
      = specCascadeDoc ((d.bind (·.animation)).bind (·.enabled)) g.animationEnabled
    ∧ (resolveEffectiveDashboardConfig g d).animation.2
      = specCascadeDoc ((d.bind (·.animation)).bind (·.duration)) g.animationDuration
    ∧ (resolveEffectiveDashboardConfig g d).showHeaders
      = specCascadeDoc (d.bind (·.showHeaders)) g.showHeaders
    ∧ (resolveEffectiveDashboardConfig g d).linkBehavior
      = specCascadeDoc (d.bind (·.linkBehavior)) g.linkBehavior
    ∧ (resolveEffectiveDashboardConfig g d).scrollBehavior
      = specCascadeDoc (d.bind (·.scrollBehavior)) g.scrollBehavior
    ∧ (resolveEffectiveDashboardConfig g d).seamlessNested
      = specCascadeDoc (d.bind (·.seamlessNested)) g.seamlessNested
    ∧ (resolveEffectiveDashboardConfig g d).showEmbedLink
      = specCascadeDoc (d.bind (·.showEmbedLink)) g.showEmbedLink
    ∧ (resolveEffectiveDashboardConfig g d).redistributeEqually
      = specCascadeDoc (d.bind (·.redistributeEqually)) g.redistributeEqually :=
  ⟨jsNC_jsNCO_eq_specCascade _ _ _, jsNC_jsNCO_eq_specCascade _ _ _,
   jsNC_jsNCO_eq_specCascade _ _ _, jsNC_jsNCO_eq_specCascade _ _ _,
   jsNC_jsNCO_eq_specCascade _ _ _, jsNC_jsNCO_eq_specCascade _ _ _,
   jsNC_eq_specCascadeDoc _ _, jsNC_eq_specCascadeDoc _ _,
   jsNC_eq_specCascadeDoc _ _, jsNC_eq_specCascadeDoc _ _,
   jsNC_eq_specCascadeDoc _ _, jsNC_eq_specCascadeDoc _ _,
   jsNC_eq_specCascadeDoc _ _, jsNC_eq_specCascadeDoc _ _,
   jsNC_eq_specCascadeDoc _ _, jsNC_eq_specCascadeDoc _ _,
   jsNC_eq_specCascadeDoc _ _, jsNC_eq_specCascadeDoc _ _⟩

/-! Claim about the widget registry -/

/-- C10: the merged registry maps a key to the custom factory whenever the
custom registry binds it and to the built-in factory otherwise; in
particular a custom factory registered under a built-in key overrides the
built-in one, and `getWidgetFactory` then returns the custom factory. -/
theorem widget_registry_override (c : WidgetRegistryFn) (k : String) :
    (∀ f, c k = some f → createWidgetRegistry c k = some f)
    ∧ (c k = Option.none → createWidgetRegistry c k = builtInWidgets k)
    ∧ (∀ f, c "empty" = some f →
        getWidgetFactory (createWidgetRegistry c) "empty" = f)
    ∧ (∀ f, c "embedded" = some f →
        getWidgetFactory (createWidgetRegistry c) "embedded" = f) := by
  refine ⟨fun f hf => ?_, fun hf => ?_, fun f hf => ?_, fun f hf => ?_⟩
  · simp [createWidgetRegistry, hf]
  · simp [createWidgetRegistry, hf]
  · simp [createWidgetRegistry, getWidgetFactory, hf, jsNCO, jsNC]
  · simp [createWidgetRegistry, getWidgetFactory, hf, jsNCO, jsNC]

/-- Witness for C10: a custom factory bound under the built-in keys `empty`
and `embedded` wins over the built-in factories. -/
theorem widget_registry_override_witness :
    getWidgetFactory
      (createWidgetRegistry (fun s =>
        if s = "empty" then some (WidgetFactoryRef.custom 7)
        else if s = "embedded" then some (WidgetFactoryRef.custom 8)
        else Option.none)) "empty" = WidgetFactoryRef.custom 7
    ∧ getWidgetFactory
      (createWidgetRegistry (fun s =>
        if s = "empty" then some (WidgetFactoryRef.custom 7)
        else if s = "embedded" then some (WidgetFactoryRef.custom 8)
        else Option.none)) "embedded" = WidgetFactoryRef.custom 8 :=
  ⟨(widget_registry_override _ "empty").2.2.1 _ rfl,
   (widget_registry_override _ "embedded").2.2.2 _ rfl⟩

/-! Claim about teardown -/

/-- C8: after `stop()` no registered change or modify callback ever fires —
the tracker's subscriptions are released, every later vault event is ignored,
and (the debounced modify handler firing only synchronously on its leading
edge) no pending timer can fire a callback after teardown. -/
theorem no_callback_after_stop (st : TrackerState) (evs : List VaultEvent) :
    (runEvents (stopTracker st) evs).2 = []
    ∧ (runEvents (stopTracker st) evs).1 = stopTracker st := by
  have h : ∀ (evs : List VaultEvent) (s : TrackerState), s.listening = false →
      runEvents s evs = (s, []) := by
    intro evs
    induction evs with
    | nil => intro s _; rfl
    | cons ev evs ih =>
      intro s hs
      simp [runEvents, processEvent, hs, ih s hs]
  have hs : (stopTracker st).listening = false := rfl
  simp [h evs (stopTracker st) hs]

/-! Map and set lemmas -/

theorem mapGet_cons (p : String × α) (m : List (String × α)) (k : String) :
    mapGet (p :: m) k = if p.1 = k then some p.2 else mapGet m k := by
  by_cases h : p.1 = k <;> simp [mapGet, List.find?_cons, h]

theorem mapGet_del (m : List (String × α)) (k k' : String) :
    mapGet (mapDel m k) k' = if k' = k then Option.none else mapGet m k' := by
  induction m with
  | nil => simp [mapGet, mapDel]
  | cons p m ih =>
    by_cases h1 : p.1 = k
    · have hdrop : mapDel (p :: m) k = mapDel m k := by
        simp [mapDel, List.filter_cons, h1]
      rw [hdrop, ih, mapGet_cons]
      by_cases h2 : k' = k
      · simp [h2]
      · have hne : ¬ (p.1 = k') := fun hh => h2 ((h1.symm.trans hh).symm)
        simp [h2, hne]
    · have hkeep : mapDel (p :: m) k = p :: mapDel m k := by
        simp [mapDel, List.filter_cons, h1]
      rw [hkeep, mapGet_cons, ih, mapGet_cons]
      by_cases h2 : k' = k
      · subst h2
        simp [h1]
      · simp [h2]

theorem mapGet_replace_ne (m : List (String × α)) (k k' : String) (v : α)
    (h : k' ≠ k) :
    mapGet (m.map (fun p => if p.1 = k then (k, v) else p)) k' = mapGet m k' := by
  induction m with
  | nil => rfl
  | cons p m ih =>
    by_cases h1 : p.1 = k
    · have e1 : ¬ (k = k') := fun hh => h hh.symm
      have e2 : ¬ (p.1 = k') := by rw [h1]; exact e1
      simp only [List.map_cons, if_pos h1]
      rw [mapGet_cons, mapGet_cons, ih]
      simp [e1, e2]
    · simp only [List.map_cons, if_neg h1]
      rw [mapGet_cons, mapGet_cons, ih]

theorem mapGet_replace_self (m : List (String × α)) (k : String) (v : α)
    (h : (m.find? (fun q => q.1 = k)).isSome) :
    mapGet (m.map (fun p => if p.1 = k then (k, v) else p)) k = some v := by
  induction m with
  | nil => simp at h
  | cons p m ih =>
    by_cases h1 : p.1 = k
    · simp only [List.map_cons, if_pos h1]
      rw [mapGet_cons]
      simp
    · have h' : (m.find? (fun q => q.1 = k)).isSome := by
        rw [List.find?_cons_of_neg _ (by simpa using h1)] at h
        exact h
      simp only [List.map_cons, if_neg h1]
      rw [mapGet_cons]
      simp [h1, ih h']

theorem mapGet_append_single (m : List (String × α)) (k k' : String) (v : α)
    (h : (m.find? (fun q => q.1 = k)).isSome = false) :
    mapGet (m ++ [(k, v)]) k' = if k' = k then some v else mapGet m k' := by
  induction m with
  | nil =>
    simp only [List.nil_append]
    rw [mapGet_cons]
    by_cases h2 : k' = k
    · simp [h2, mapGet]
    · have : ¬ ((k, v).1 = k') := fun hh => h2 hh.symm
      simp [this, h2, mapGet]
  | cons p m ih =>
    have h1 : ¬ (p.1 = k) := by
      intro hh
      rw [List.find?_cons_of_pos _ (by simpa using hh)] at h
      simp at h
    have h' : (m.find? (fun q => q.1 = k)).isSome = false := by
      rw [List.find?_cons_of_neg _ (by simpa using h1)] at h
      exact h
    simp only [List.cons_append]
    rw [mapGet_cons, mapGet_cons, ih h']
    by_cases h2 : k' = k
    · subst h2
      simp [h1]
    · simp [h2]

theorem mapGet_set (m : List (String × α)) (k k' : String) (v : α) :
    mapGet (mapSet m k v) k' = if k' = k then some v else mapGet m k' := by
  by_cases hp : (m.find? (fun p => p.1 = k)).isSome = true
  · simp only [mapSet, if_pos hp]
    by_cases h2 : k' = k
    · subst h2
      simp [mapGet_replace_self m k' v hp]
    · rw [mapGet_replace_ne m k k' v h2]
      simp [h2]
  · simp only [mapSet, if_neg hp]
    exact mapGet_append_single m k k' v (Bool.eq_false_iff.mpr hp)

/-! Lifecycle lemmas -/

theorem liveInstances_filter_le (vs : ViewState) (q : String × Nat → Bool) (c : String) :
    ((vs.mounted.filter q).filter (fun p => p.1 = c)).length ≤ liveInstances vs c := by
  exact List.Sublist.length_le (List.Sublist.filter _ (List.filter_sublist _))

theorem liveInstances_zero_iff (vs : ViewState) (c : String) :
    liveInstances vs c = 0 ↔ ∀ i, (c, i) ∉ vs.mounted := by
  simp only [liveInstances, List.length_eq_zero, List.filter_eq_nil_iff]
  constructor
  · intro h i hmem
    have := h (c, i) hmem
    simp at this
  · intro h p hp
    simp only [decide_eq_true_eq]
    intro hc
    have hpair : p = (c, p.2) := by
      cases p
      simp_all
    exact h p.2 (by rw [← hpair]; exact hp)

theorem goodView_initView : GoodView initView := by
  constructor
  · intro c; simp [liveInstances, initView]
  · intro c i; simp [mapGet, initView]

theorem goodView_unmountReg (vs : ViewState) (t : String) (i : Nat)
    (h : GoodView vs) (hg : mapGet vs.activeWidgets t = some i) :
    GoodView { vs with mounted := vs.mounted.filter (fun p => p ≠ (t, i)),
                       activeWidgets := mapDel vs.activeWidgets t }
    ∧ ∀ j, (t, j) ∉ vs.mounted.filter (fun p => p ≠ (t, i)) := by
  obtain ⟨h1, h2⟩ := h
  have hnotin : ∀ j, (t, j) ∉ vs.mounted.filter (fun p => p ≠ (t, i)) := by
    intro j hj
    have hne := List.of_mem_filter hj
    have hji := (h2 t j).mpr (List.mem_of_mem_filter hj)
    rw [hg] at hji
    have hij : j = i := by
      have := hji.symm
      simpa using this
    subst hij
    simp at hne
  refine ⟨⟨fun c => ?_, fun c j => ?_⟩, hnotin⟩
  · exact le_trans (liveInstances_filter_le vs _ c) (h1 c)
  · show mapGet (mapDel vs.activeWidgets t) c = some j ↔ _
    rw [mapGet_del]
    by_cases hc : c = t
    · subst hc
      simp only [if_pos rfl]
      exact iff_of_false (by simp) (hnotin j)
    · simp only [if_neg hc]
      rw [h2 c j]
      constructor
      · intro hmem
        refine List.mem_filter.mpr ⟨hmem, ?_⟩
        exact decide_eq_true (fun hpair => hc (congrArg Prod.fst hpair))
      · exact fun hmem => List.mem_of_mem_filter hmem

theorem goodView_mountFresh (vs : ViewState) (t : String)
    (h : GoodView vs) (hempty : ∀ j, (t, j) ∉ vs.mounted) :
    GoodView { vs with mounted := vs.mounted ++ [(t, vs.nextId)],
                       activeWidgets := mapSet vs.activeWidgets t vs.nextId,
                       nextId := vs.nextId + 1 } := by
  obtain ⟨h1, h2⟩ := h
  constructor
  · intro c
    by_cases hc : c = t
    · subst hc
      have hnil : vs.mounted.filter (fun p => p.1 = c) = [] := by
        refine List.filter_eq_nil_iff.mpr (fun p hp => ?_)
        simp only [decide_eq_true_eq]
        intro hfst
        refine hempty p.2 ?_
        have hpair : p = (c, p.2) := by
          cases p
          simp_all
        rw [← hpair]
        exact hp
      simp [liveInstances, List.filter_append, hnil]
    · have hne : ¬ (t = c) := fun hh => hc hh.symm
      simp only [liveInstances, List.filter_append]
      simp [hne]
      exact h1 c
  · intro c j
    show mapGet (mapSet vs.activeWidgets t vs.nextId) c = some j ↔ _
    rw [mapGet_set]
    by_cases hc : c = t
    · subst hc
      simp only [if_pos rfl, List.mem_append]
      constructor
      · intro hj
        have hjn : j = vs.nextId := by
          have := hj.symm
          simpa using this
        subst hjn
        simp
      · intro hj
        rcases hj with hj | hj
        · exact absurd hj (hempty j)
        · have hjn : j = vs.nextId := by simpa using hj
          simp [hjn]
    · simp only [if_neg hc, List.mem_append]
      rw [h2 c j]
      constructor
      · intro hm
        exact Or.inl hm
      · intro hm
        rcases hm with hm | hm
        · exact hm
        · have : c = t ∧ j = vs.nextId := by simpa using hm
          exact absurd this.1 hc

theorem goodView_update (vs : ViewState) (t : String) (e : Bool)
    (h : GoodView vs) : GoodView (updateWidgetForTile vs t e) := by
  rcases hg : mapGet vs.activeWidgets t with _ | i
  · have hempty : ∀ j, (t, j) ∉ vs.mounted := by
      intro j hj
      have := (h.2 t j).mpr hj
      rw [hg] at this
      exact Option.noConfusion this
    cases e
    · simpa [updateWidgetForTile, hg] using h
    · have := goodView_mountFresh vs t h hempty
      simpa [updateWidgetForTile, hg] using this
  · obtain ⟨hgood, hempty⟩ := goodView_unmountReg vs t i h hg
    cases e
    · simpa [updateWidgetForTile, hg] using hgood
    · have := goodView_mountFresh _ t hgood hempty
      simpa [updateWidgetForTile, hg] using this

theorem goodView_runHelperSeq (steps : List (String × Bool)) (vs : ViewState)
    (h : GoodView vs) : GoodView (runHelperSeq vs steps) := by
  induction steps generalizing vs with
  | nil => simpa [runHelperSeq] using h
  | cons s steps ih =>
    simpa [runHelperSeq, List.foldl_cons] using
      ih (updateWidgetForTile vs s.1 s.2) (goodView_update vs s.1 s.2 h)

/-- C4 — counterexample to the claim as stated: the lifecycle operations
include the `mount()` of a bridge instance, and `mount()` registers a new
live widget without unmounting the cell's previously registered one; two
consecutive bridge mounts for cell `tile-1` leave two live instances for
that cell at once. -/
theorem bridge_double_mount_two_instances :
    liveInstances (bridgeMount (bridgeMount initView "tile-1") "tile-1") "tile-1" = 2 := by
  rfl

/-- C4 amended: within one open view, `updateWidgetForTile` always unmounts
the cell's prior widget before mounting a fresh one, so under every sequence
of `updateWidgetForTile` and `refreshAllWidgets` operations at most one live
widget instance exists per cell at every instant; the invariant is however
not enforced against a bridge instance's own `mount()`, which registers a
new instance without unmounting the prior one. -/
theorem helper_update_single_instance (steps : List (String × Bool))
    (tiles : List (String × Bool)) (c : String) :
    liveInstances (runHelperSeq initView steps) c ≤ 1
    ∧ liveInstances (refreshAllWidgets (runHelperSeq initView steps) tiles) c ≤ 1 := by
  constructor
  · exact (goodView_runHelperSeq steps initView goodView_initView).1 c
  · exact (goodView_runHelperSeq tiles _
      (goodView_runHelperSeq steps initView goodView_initView)).1 c

/-! Claim about debounced modify notifications -/

theorem handleModify_suppressed (st : TrackerState) (f : VFile) (t e : Nat)
    (hwin : st.debounceWindowEnd = some e) (ht : t < e) :
    handleModify st f t = (st, []) := by
  unfold handleModify
  by_cases hf : f.isTFile = true
  · simp only [hf, Bool.not_true, Bool.false_eq_true, if_false]
    by_cases hext : f.extension = dashExtension
    · simp [hext]
    · simp only [if_neg hext]
      cases hidx : mapGet st.index f.path with
      | none => rfl
      | some refs =>
        by_cases hr : refs = [] <;>
          simp [hr, debouncedModifyHandler, hwin, ht]
  · simp [hf]

theorem runEvents_suppressed_all (st : TrackerState) (f : VFile) (e : Nat)
    (times : List Nat)
    (hwin : st.debounceWindowEnd = some e)
    (htimes : ∀ t ∈ times, t < e) :
    runEvents st (times.map (fun t => VaultEvent.modify f t)) = (st, []) := by
  induction times with
  | nil => rfl
  | cons t ts ih =>
    have h1 : processEvent st (VaultEvent.modify f t) = (st, []) := by
      by_cases hl : st.listening = true
      · simp [processEvent, hl,
          handleModify_suppressed st f t e hwin (htimes t (by simp))]
      · simp [processEvent, hl]
    simp [runEvents, List.map_cons, h1,
      ih (fun t ht => htimes t (by simp [ht]))]

/-- C3 — counterexample to the claim as stated: the source creates one
shared debounced handler for all file paths, not one per locator.  Starting
from the indexed two-dashboard fixture, a modify event for `notes/a.md` at
time 0 fires immediately and opens the shared window; the single modify
event for the distinct referenced locator `notes/b.md` at time 100 falls
into that shared window and is suppressed, so `notes/b.md` receives zero
modify callbacks instead of exactly one. -/
theorem modify_debounce_not_per_locator :
    (runEvents exIndexed
        [VaultEvent.modify ⟨"notes/a.md", "md", true⟩ 0,
         VaultEvent.modify ⟨"notes/b.md", "md", true⟩ 100]).2
      = [TrackerNotif.modify "notes/a.md" ["boards/d1.dash"]]
    ∧ ((runEvents exIndexed
        [VaultEvent.modify ⟨"notes/a.md", "md", true⟩ 0,
         VaultEvent.modify ⟨"notes/b.md", "md", true⟩ 100]).2.filter
        (fun n => match n with
          | TrackerNotif.modify p _ => p = "notes/b.md"
          | _ => false)).length = 0 := by
  constructor
  · rfl
  · rfl

/-- C3 amended: the tracker debounces all locators through one shared
leading-edge handler, not independently per locator.  For a single
referenced locator `p` with no other interleaved events: N ≥ 1 modify
events for `p` arriving within one debounce window — the first opening the
window — produce exactly one modify callback round for `p`, fired
immediately at the first event; a modify event for a distinct locator
arriving within the same shared window is suppressed outright. -/
theorem modify_debounce_single_locator
    (st : TrackerState) (p ext : String) (refs : List String) (t0 : Nat)
    (later : List Nat)
    (hlisten : st.listening = true)
    (hwin : st.debounceWindowEnd = Option.none)
    (hext : ext ≠ dashExtension)
    (hidx : mapGet st.index p = some refs)
    (hrefs : refs ≠ [])
    (hlater : ∀ t ∈ later, t < t0 + 500) :
    (runEvents st ((t0 :: later).map (fun t => VaultEvent.modify ⟨p, ext, true⟩ t))).2
      = [TrackerNotif.modify p refs] := by
  have hfirst : processEvent st (VaultEvent.modify ⟨p, ext, true⟩ t0)
      = ({ st with debounceWindowEnd := some (t0 + 500) },
         [TrackerNotif.modify p refs]) := by
    simp [processEvent, hlisten, handleModify, hext, hidx, hrefs,
      debouncedModifyHandler, hwin, notifyModifyCallbacks]
  have hrest := runEvents_suppressed_all
    { st with debounceWindowEnd := some (t0 + 500) } ⟨p, ext, true⟩ (t0 + 500)
    later rfl hlater
  simp [runEvents, List.map_cons, hfirst, hrest]

/-- Witness for C3's amended claim: three modify events for `notes/a.md`
at times 0, 100 and 400 — all inside the window opened at time 0 — produce
exactly the one callback round fired at time 0. -/
theorem modify_debounce_single_locator_witness :
    exIndexed.listening = true
    ∧ mapGet exIndexed.index "notes/a.md" = some ["boards/d1.dash"]
    ∧ (runEvents exIndexed ((0 :: [100, 400]).map
        (fun t => VaultEvent.modify ⟨"notes/a.md", "md", true⟩ t))).2
      = [TrackerNotif.modify "notes/a.md" ["boards/d1.dash"]] :=
  ⟨rfl, rfl,
   modify_debounce_single_locator exIndexed "notes/a.md" "md" ["boards/d1.dash"]
     0 [100, 400] rfl rfl (by decide) rfl (by decide) (by decide)⟩

/-! Claim about the no-empty-entries index invariant -/

theorem setAdd_ne_nil (s : List String) (x : String) : setAdd s x ≠ [] := by
  unfold setAdd
  by_cases h : x ∈ s
  · simp only [if_pos h]
    exact List.ne_nil_of_mem h
  · simp [h]

theorem indexGood_mapSet (m : List (String × List String)) (k : String)
    (v : List String) (hm : IndexGood m) (hv : v ≠ []) :
    IndexGood (mapSet m k v) := by
  intro p hp
  unfold mapSet at hp
  by_cases h : (m.find? (fun q => q.1 = k)).isSome = true
  · simp only [if_pos h] at hp
    obtain ⟨q, hq, hqe⟩ := List.mem_map.mp hp
    by_cases hqk : q.1 = k
    · rw [if_pos hqk] at hqe
      rw [← hqe]
      exact hv
    · rw [if_neg hqk] at hqe
      rw [← hqe]
      exact hm q hq
  · simp only [if_neg h] at hp
    rcases List.mem_append.mp hp with hp | hp
    · exact hm p hp
    · have : p = (k, v) := by simpa using hp
      rw [this]
      exact hv

theorem indexGood_addReference (idx : List (String × List String))
    (f d : String) (hm : IndexGood idx) : IndexGood (addReference idx f d) := by
  unfold addReference
  cases mapGet idx f with
  | none => exact indexGood_mapSet idx f [d] hm (by simp)
  | some refs => exact indexGood_mapSet idx f (setAdd refs d) hm (setAdd_ne_nil refs d)

theorem indexGood_clear (idx : List (String × List String)) (d : String) :
    IndexGood (clearDashboardFromIndex idx d) := by
  intro p hp
  have := List.of_mem_filter hp
  simpa using this

theorem indexGood_updateDashboardPath (idx : List (String × List String))
    (oldPath newPath : String) (hm : IndexGood idx) :
    IndexGood (updateDashboardPath idx oldPath newPath) := by
  intro p hp
  obtain ⟨q, hq, hqe⟩ := List.mem_map.mp hp
  rw [← hqe]
  by_cases h : oldPath ∈ q.2
  · simp only [if_pos h]
    exact setAdd_ne_nil _ _
  · simp only [if_neg h]
    exact hm q hq

theorem indexGood_mapDel (idx : List (String × List String)) (k : String)
    (hm : IndexGood idx) : IndexGood (mapDel idx k) := by
  intro p hp
  exact hm p (List.mem_of_mem_filter hp)

theorem indexGood_addTileRefs (tiles : List DashTile)
    (idx : List (String × List String)) (d : String)
    (hm : IndexGood idx) : IndexGood (addTileRefs idx d tiles) := by
  induction tiles generalizing idx with
  | nil => exact hm
  | cons t ts ih =>
    unfold addTileRefs
    simp only [List.foldl_cons]
    cases t.meta.bind (·.contentRef) with
    | none => exact ih idx hm
    | some r =>
      by_cases hr : r ≠ ""
      · simp only [if_pos hr]
        exact ih _ (indexGood_addReference idx r d hm)
      · simp only [if_neg hr]
        exact ih idx hm

theorem indexGood_foldAddRef (refs : List String)
    (idx : List (String × List String)) (f : String)
    (hm : IndexGood idx) :
    IndexGood (refs.foldl (fun acc d => addReference acc f d) idx) := by
  induction refs generalizing idx with
  | nil => exact hm
  | cons r rs ih =>
    simp only [List.foldl_cons]
    exact ih _ (indexGood_addReference idx f r hm)

theorem indexGood_indexDashboard (st : TrackerState) (path : String)
    (hgood : IndexGood st.index) :
    IndexGood (indexDashboard st path).index := by
  unfold indexDashboard
  cases mapGet st.vault path with
  | none => exact hgood
  | some df => exact indexGood_addTileRefs df.tiles _ path (indexGood_clear st.index path)

theorem indexGood_foldIndexDashboard (paths : List String) (st : TrackerState)
    (hgood : IndexGood st.index) :
    IndexGood (paths.foldl indexDashboard st).index := by
  induction paths generalizing st with
  | nil => exact hgood
  | cons p ps ih =>
    simp only [List.foldl_cons]
    exact ih _ (indexGood_indexDashboard st p hgood)

theorem udr_index (st : TrackerState) (d o n : String) :
    (updateDashboardReferences st d o n).index = st.index := by
  unfold updateDashboardReferences
  cases mapGet st.vault d with
  | none => rfl
  | some df =>
    by_cases h : df.tiles.any (fun t => t.meta.bind (·.contentRef) = some o) = true <;>
      simp [h]

theorem fold_udr_index (refs : List String) (st : TrackerState) (o n : String) :
    ((refs.foldl (fun acc d => updateDashboardReferences acc d o n) st)).index
      = st.index := by
  induction refs generalizing st with
  | nil => rfl
  | cons r rs ih =>
    simp only [List.foldl_cons]
    rw [ih, udr_index]

theorem debounced_index (st : TrackerState) (t : Nat) (p : String) :
    (debouncedModifyHandler st t p).1.index = st.index := by
  unfold debouncedModifyHandler
  cases st.debounceWindowEnd with
  | none => rfl
  | some e =>
    by_cases h : t < e <;> simp [h]

theorem indexGood_handleRename (st : TrackerState) (f : VFile) (oldPath : String)
    (hgood : IndexGood st.index) :
    IndexGood (handleRename st f oldPath).1.index := by
  unfold handleRename
  by_cases hf : f.isTFile = true
  · simp only [hf, Bool.not_true, Bool.false_eq_true, if_false]
    by_cases hext : f.extension = dashExtension
    · simp only [if_pos hext]
      exact indexGood_updateDashboardPath _ _ _ hgood
    · simp only [if_neg hext]
      cases hidx : mapGet st.index oldPath with
      | none => exact hgood
      | some refs =>
        by_cases hr : refs = []
        · simp only [if_pos hr]
          exact hgood
        · simp only [if_neg hr]
          refine indexGood_foldAddRef refs _ f.path (indexGood_mapDel _ oldPath ?_)
          rw [fold_udr_index]
          exact hgood
  · simp only [hf]
    simp
    exact fun a b hab => hgood (a, b) hab

theorem indexGood_handleDelete (st : TrackerState) (f : VFile)
    (hgood : IndexGood st.index) :
    IndexGood (handleDelete st f).1.index := by
  unfold handleDelete
  by_cases hf : f.isTFile = true
  · simp only [hf, Bool.not_true, Bool.false_eq_true, if_false]
    by_cases hext : f.extension = dashExtension
    · simp only [if_pos hext]
      exact indexGood_clear st.index f.path
    · simp only [if_neg hext]
      cases hidx : mapGet st.index f.path with
      | none => exact hgood
      | some refs =>
        by_cases hr : refs = []
        · simp only [if_pos hr]
          exact hgood
        · simp only [if_neg hr]
          exact indexGood_mapDel st.index f.path hgood
  · simp only [hf]
    simp
    exact fun a b hab => hgood (a, b) hab

theorem indexGood_handleModify (st : TrackerState) (f : VFile) (t : Nat)
    (hgood : IndexGood st.index) :
    IndexGood (handleModify st f t).1.index := by
  unfold handleModify
  by_cases hf : f.isTFile = true
  · simp only [hf, Bool.not_true, Bool.false_eq_true, if_false]
    by_cases hext : f.extension = dashExtension
    · simp only [if_pos hext]
      exact hgood
    · simp only [if_neg hext]
      cases hidx : mapGet st.index f.path with
      | none => exact hgood
      | some refs =>
        by_cases hr : refs = []
        · simp only [if_pos hr]
          exact hgood
        · simp only [if_neg hr]
          rw [debounced_index]
          exact hgood
  · simp only [hf]
    simp
    exact fun a b hab => hgood (a, b) hab

/-- C6: every tracker operation — indexing one dashboard, the full rescan,
removing a dashboard, and the rename, delete and modify handlers — preserves
the invariant that the reference index holds no key mapped to an empty set
of dashboards. -/
theorem tracker_ops_preserve_no_empty_entries (st : TrackerState)
    (hgood : IndexGood st.index) :
    (∀ path, IndexGood (indexDashboard st path).index)
    ∧ IndexGood (indexAllDashboards st).index
    ∧ (∀ d, IndexGood (removeDashboard st d).index)
    ∧ (∀ f oldPath, IndexGood (handleRename st f oldPath).1.index)
    ∧ (∀ f, IndexGood (handleDelete st f).1.index)
    ∧ (∀ f t, IndexGood (handleModify st f t).1.index) := by
  refine ⟨fun path => indexGood_indexDashboard st path hgood,
    ?_,
    fun d => indexGood_clear st.index d,
    fun f oldPath => indexGood_handleRename st f oldPath hgood,
    fun f => indexGood_handleDelete st f hgood,
    fun f t => indexGood_handleModify st f t hgood⟩
  unfold indexAllDashboards
  exact indexGood_foldIndexDashboard _ _ (by intro p hp; simp at hp)

/-- Witness for C6 at the indexed two-dashboard fixture and a content-file
delete event. -/
theorem tracker_ops_preserve_no_empty_entries_witness :
    IndexGood exIndexed.index
    ∧ IndexGood (handleDelete exIndexed ⟨"notes/a.md", "md", true⟩).1.index :=
  ⟨by decide,
   (tracker_ops_preserve_no_empty_entries exIndexed (by decide)).2.2.2.2.1
     ⟨"notes/a.md", "md", true⟩⟩

/-! Claim about the document rewriter -/

theorem udr_vault_self (st : TrackerState) (d o n : String) (df : DashFile)
    (h : mapGet st.vault d = some df) :
    mapGet (updateDashboardReferences st d o n).vault d
      = some { df with tiles := df.tiles.map (rewriteTile o n) } := by
  unfold updateDashboardReferences
  rw [h]
  by_cases hmod : df.tiles.any (fun t => t.meta.bind (·.contentRef) = some o) = true
  · simp only [hmod, if_true]
    rw [mapGet_set]
    simp
  · simp only [hmod, if_false]
    have hno : ∀ t ∈ df.tiles, ¬ (t.meta.bind (·.contentRef) = some o) := by
      intro t ht
      have := List.any_eq_false.mp (Bool.eq_false_iff.mpr hmod) t ht
      simpa using this
    have hmap : df.tiles.map (rewriteTile o n) = df.tiles := by
      have : ∀ t ∈ df.tiles, rewriteTile o n t = t := by
        intro t ht
        unfold rewriteTile
        rw [if_neg (hno t ht)]
      calc df.tiles.map (rewriteTile o n) = df.tiles.map id := List.map_congr_left this
        _ = df.tiles := List.map_id df.tiles
    rw [hmap]
    exact h

theorem udr_vault_other (st : TrackerState) (d o n p : String) (hp : p ≠ d) :
    mapGet (updateDashboardReferences st d o n).vault p = mapGet st.vault p := by
  unfold updateDashboardReferences
  cases mapGet st.vault d with
  | none => rfl
  | some df =>
    by_cases hmod : df.tiles.any (fun t => t.meta.bind (·.contentRef) = some o) = true
    · simp only [hmod, if_true]
      rw [mapGet_set]
      simp [hp]
    · simp [hmod]

theorem rewriteTile_contentRef (o n : String) (t : DashTile) :
    (rewriteTile o n t).meta.bind (·.contentRef)
      = (if t.meta.bind (·.contentRef) = some o then some n
         else t.meta.bind (·.contentRef)) := by
  unfold rewriteTile
  by_cases h : t.meta.bind (·.contentRef) = some o
  · rw [if_pos h, if_pos h]
    cases hm : t.meta with
    | none => rw [hm] at h; simp at h
    | some m => simp
  · rw [if_neg h, if_neg h]

theorem rewriteTile_frame (o n : String) (t : DashTile) :
    (rewriteTile o n t).id = t.id
    ∧ (rewriteTile o n t).x = t.x
    ∧ (rewriteTile o n t).y = t.y
    ∧ (rewriteTile o n t).width = t.width
    ∧ (rewriteTile o n t).height = t.height
    ∧ (rewriteTile o n t).locked = t.locked
    ∧ (rewriteTile o n t).constraints = t.constraints
    ∧ (rewriteTile o n t).meta.map metaFrame = t.meta.map metaFrame := by
  unfold rewriteTile
  by_cases h : t.meta.bind (·.contentRef) = some o
  · simp only [if_pos h, true_and, and_true, and_self]
    cases t.meta with
    | none => rfl
    | some m => simp [metaFrame]
  · simp [if_neg h]

theorem udr_nomatch (st : TrackerState) (d o n : String) (df : DashFile)
    (h : mapGet st.vault d = some df)
    (hno : ∀ t ∈ df.tiles, t.meta.bind (·.contentRef) ≠ some o) :
    updateDashboardReferences st d o n = st := by
  unfold updateDashboardReferences
  rw [h]
  have hmod : df.tiles.any (fun t => t.meta.bind (·.contentRef) = some o) = false := by
    rw [List.any_eq_false]
    intro t ht
    simpa using hno t ht
  simp [hmod]

/-- C7: rewriting a dashboard for a rename from `oldLoc` to `newLoc`
replaces the content reference with `newLoc` in exactly those cells whose
`meta.contentRef` equalled `oldLoc`, leaves every other field of every cell
and of the document (and the rest of the tracker state) unchanged, and does
not write the document back when no cell matched. -/
theorem updateDashboardReferences_frame (st : TrackerState)
    (dashboardPath oldLoc newLoc : String) (df : DashFile)
    (hvault : mapGet st.vault dashboardPath = some df) :
    mapGet (updateDashboardReferences st dashboardPath oldLoc newLoc).vault dashboardPath
      = some { df with tiles := df.tiles.map (rewriteTile oldLoc newLoc) }
    ∧ (∀ t : DashTile,
        (rewriteTile oldLoc newLoc t).meta.bind (·.contentRef)
          = (if t.meta.bind (·.contentRef) = some oldLoc then some newLoc
             else t.meta.bind (·.contentRef))
        ∧ (rewriteTile oldLoc newLoc t).id = t.id
        ∧ (rewriteTile oldLoc newLoc t).x = t.x
        ∧ (rewriteTile oldLoc newLoc t).y = t.y
        ∧ (rewriteTile oldLoc newLoc t).width = t.width
        ∧ (rewriteTile oldLoc newLoc t).height = t.height
        ∧ (rewriteTile oldLoc newLoc t).locked = t.locked
        ∧ (rewriteTile oldLoc newLoc t).constraints = t.constraints
        ∧ (rewriteTile oldLoc newLoc t).meta.map metaFrame = t.meta.map metaFrame)
    ∧ ({ df with tiles := df.tiles.map (rewriteTile oldLoc newLoc) } : DashFile).settings
        = df.settings
    ∧ ({ df with tiles := df.tiles.map (rewriteTile oldLoc newLoc) } : DashFile).version
        = df.version
    ∧ (∀ p, p ≠ dashboardPath →
        mapGet (updateDashboardReferences st dashboardPath oldLoc newLoc).vault p
          = mapGet st.vault p)
    ∧ (updateDashboardReferences st dashboardPath oldLoc newLoc).index = st.index
    ∧ ((∀ t ∈ df.tiles, t.meta.bind (·.contentRef) ≠ some oldLoc) →
        updateDashboardReferences st dashboardPath oldLoc newLoc = st) := by
  refine ⟨udr_vault_self st dashboardPath oldLoc newLoc df hvault,
    fun t => ⟨rewriteTile_contentRef oldLoc newLoc t, rewriteTile_frame oldLoc newLoc t⟩,
    rfl, rfl,
    fun p hp => udr_vault_other st dashboardPath oldLoc newLoc p hp,
    udr_index st dashboardPath oldLoc newLoc,
    udr_nomatch st dashboardPath oldLoc newLoc df hvault⟩

/-- Witness for C7 at the indexed two-dashboard fixture: rewriting
`boards/d1.dash` for the rename of `notes/a.md` to `notes/c.md`. -/
theorem updateDashboardReferences_frame_witness :
    mapGet exIndexed.vault "boards/d1.dash" = some (exDash "notes/a.md")
    ∧ mapGet (updateDashboardReferences exIndexed "boards/d1.dash"
        "notes/a.md" "notes/c.md").vault "boards/d1.dash"
      = some { exDash "notes/a.md" with
          tiles := (exDash "notes/a.md").tiles.map (rewriteTile "notes/a.md" "notes/c.md") } :=
  ⟨rfl,
   (updateDashboardReferences_frame exIndexed "boards/d1.dash" "notes/a.md"
     "notes/c.md" (exDash "notes/a.md") rfl).1⟩

/-! Claim about rename propagation -/

theorem mem_setAdd_self (s : List String) (x : String) : x ∈ setAdd s x := by
  unfold setAdd
  by_cases h : x ∈ s
  · simp only [if_pos h]
    exact h
  · simp [h]

theorem mem_setAdd_mono (s : List String) (x y : String) (h : x ∈ s) :
    x ∈ setAdd s y := by
  unfold setAdd
  by_cases hy : y ∈ s
  · simpa [hy] using h
  · simp [hy, h]

theorem mem_addReference_self (idx : List (String × List String)) (f d : String) :
    ∃ s, mapGet (addReference idx f d) f = some s ∧ d ∈ s := by
  unfold addReference
  cases mapGet idx f with
  | none =>
    refine ⟨[d], ?_, by simp⟩
    rw [mapGet_set]
    simp
  | some refs =>
    refine ⟨setAdd refs d, ?_, mem_setAdd_self refs d⟩
    rw [mapGet_set]
    simp

theorem mem_addReference_mono (idx : List (String × List String))
    (f d d' : String) (s : List String)
    (h : mapGet idx f = some s) (hd : d ∈ s) :
    ∃ s', mapGet (addReference idx f d') f = some s' ∧ d ∈ s' := by
  unfold addReference
  rw [h]
  refine ⟨setAdd s d', ?_, mem_setAdd_mono s d d' hd⟩
  rw [mapGet_set]
  simp

theorem fold_addReference_preserves_mem (refs : List String)
    (idx : List (String × List String)) (f D : String) (s : List String)
    (h : mapGet idx f = some s) (hD : D ∈ s) :
    ∃ s', mapGet (refs.foldl (fun acc d => addReference acc f d) idx) f = some s'
      ∧ D ∈ s' := by
  induction refs generalizing idx s with
  | nil => exact ⟨s, h, hD⟩
  | cons r rs ih =>
    simp only [List.foldl_cons]
    obtain ⟨s', hs', hD'⟩ := mem_addReference_mono idx f D r s h hD
    exact ih _ s' hs' hD'

theorem mem_fold_addReference (refs : List String)
    (idx : List (String × List String)) (f D : String) (hD : D ∈ refs) :
    ∃ s, mapGet (refs.foldl (fun acc d => addReference acc f d) idx) f = some s
      ∧ D ∈ s := by
  induction refs generalizing idx with
  | nil => simp at hD
  | cons r rs ih =>
    simp only [List.foldl_cons]
    rcases List.mem_cons.mp hD with hDr | hDrs
    · subst hDr
      obtain ⟨s, hs, hDs⟩ := mem_addReference_self idx f D
      exact fold_addReference_preserves_mem rs _ f D s hs hDs
    · exact ih _ hDrs

theorem addReference_get_other (idx : List (String × List String))
    (f d k : String) (hk : k ≠ f) :
    mapGet (addReference idx f d) k = mapGet idx k := by
  unfold addReference
  cases mapGet idx f with
  | none => rw [mapGet_set]; simp [hk]
  | some refs => rw [mapGet_set]; simp [hk]

theorem fold_addReference_get_other (refs : List String)
    (idx : List (String × List String)) (f k : String) (hk : k ≠ f) :
    mapGet (refs.foldl (fun acc d => addReference acc f d) idx) k = mapGet idx k := by
  induction refs generalizing idx with
  | nil => rfl
  | cons r rs ih =>
    simp only [List.foldl_cons]
    rw [ih _, addReference_get_other idx f r k hk]

theorem fold_udr_vault_notin (refs : List String) (st : TrackerState)
    (o n D : String) (hD : D ∉ refs) :
    mapGet ((refs.foldl (fun acc d => updateDashboardReferences acc d o n) st)).vault D
      = mapGet st.vault D := by
  induction refs generalizing st with
  | nil => rfl
  | cons r rs ih =>
    simp only [List.foldl_cons]
    have hDr : D ≠ r := fun hh => hD (by simp [hh])
    rw [ih _ (fun hh => hD (by simp [hh])), udr_vault_other st r o n D hDr]

theorem fold_udr_vault_mem (refs : List String) (st : TrackerState)
    (o n D : String) (df : DashFile) (hnd : refs.Nodup) (hD : D ∈ refs)
    (hv : mapGet st.vault D = some df) :
    mapGet ((refs.foldl (fun acc d => updateDashboardReferences acc d o n) st)).vault D
      = some { df with tiles := df.tiles.map (rewriteTile o n) } := by
  induction refs generalizing st with
  | nil => simp at hD
  | cons r rs ih =>
    simp only [List.foldl_cons]
    rcases List.mem_cons.mp hD with hDr | hDrs
    · subst hDr
      have hnotin : D ∉ rs := (List.nodup_cons.mp hnd).1
      rw [fold_udr_vault_notin rs _ o n D hnotin]
      exact udr_vault_self st D o n df hv
    · have hDr : D ≠ r := by
        intro hh
        subst hh
        exact (List.nodup_cons.mp hnd).1 hDrs
      refine ih _ (List.nodup_cons.mp hnd).2 hDrs ?_
      rw [udr_vault_other st r o n D hDr]
      exact hv

/-- C1: from any tracker state in which document `D` references content
locator `oldLoc`, after the rename handler processes a rename of `oldLoc` to
`newLoc` (the renamed object not being a dashboard document): `D`'s persisted
content is the old content with `newLoc` substituted in every cell whose
`meta.contentRef` equalled `oldLoc`, `getDashboardsReferencing newLoc`
contains `D`, and `getDashboardsReferencing oldLoc` is empty. -/
theorem handleRename_propagates (st : TrackerState)
    (oldLoc newLoc ext : String) (refs : List String) (D : String) (df : DashFile)
    (hext : ext ≠ dashExtension)
    (hne : oldLoc ≠ newLoc)
    (hidx : mapGet st.index oldLoc = some refs)
    (hD : D ∈ refs)
    (hnd : refs.Nodup)
    (hvault : mapGet st.vault D = some df) :
    mapGet (handleRename st ⟨newLoc, ext, true⟩ oldLoc).1.vault D
      = some { df with tiles := df.tiles.map (rewriteTile oldLoc newLoc) }
    ∧ (∀ t ∈ df.tiles, t.meta.bind (·.contentRef) = some oldLoc →
        (rewriteTile oldLoc newLoc t).meta.bind (·.contentRef) = some newLoc)
    ∧ D ∈ getDashboardsReferencing (handleRename st ⟨newLoc, ext, true⟩ oldLoc).1 newLoc
    ∧ getDashboardsReferencing (handleRename st ⟨newLoc, ext, true⟩ oldLoc).1 oldLoc = [] := by
  have hrefs : refs ≠ [] := List.ne_nil_of_mem hD
  have hred : (handleRename st ⟨newLoc, ext, true⟩ oldLoc).1
      = { (refs.foldl (fun acc d => updateDashboardReferences acc d oldLoc newLoc) st) with
          index := refs.foldl (fun acc d => addReference acc newLoc d)
            (mapDel (refs.foldl
              (fun acc d => updateDashboardReferences acc d oldLoc newLoc) st).index
              oldLoc) } := by
    simp [handleRename, hext, hidx, hrefs]
  refine ⟨?_, ?_, ?_, ?_⟩
  · rw [hred]
    exact fold_udr_vault_mem refs st oldLoc newLoc D df hnd hD hvault
  · intro t _ hmatch
    unfold rewriteTile
    rw [if_pos hmatch]
    cases hm : t.meta with
    | none => rw [hm] at hmatch; simp at hmatch
    | some m => simp
  · rw [hred]
    obtain ⟨s, hs, hDs⟩ := mem_fold_addReference refs
      (mapDel (refs.foldl
        (fun acc d => updateDashboardReferences acc d oldLoc newLoc) st).index oldLoc)
      newLoc D hD
    unfold getDashboardsReferencing
    rw [hs]
    exact hDs
  · rw [hred]
    unfold getDashboardsReferencing
    rw [fold_addReference_get_other refs _ newLoc oldLoc hne, mapGet_del]
    simp

/-- Witness for C1 at the indexed two-dashboard fixture: renaming
`notes/a.md` to `notes/c.md`. -/
theorem handleRename_propagates_witness :
    ("md" ≠ dashExtension)
    ∧ ("notes/a.md" ≠ "notes/c.md")
    ∧ mapGet exIndexed.index "notes/a.md" = some ["boards/d1.dash"]
    ∧ mapGet exIndexed.vault "boards/d1.dash" = some (exDash "notes/a.md")
    ∧ "boards/d1.dash" ∈ getDashboardsReferencing
        (handleRename exIndexed ⟨"notes/c.md", "md", true⟩ "notes/a.md").1 "notes/c.md"
    ∧ getDashboardsReferencing
        (handleRename exIndexed ⟨"notes/c.md", "md", true⟩ "notes/a.md").1 "notes/a.md" = [] := by
  have h := handleRename_propagates exIndexed "notes/a.md" "notes/c.md" "md"
    ["boards/d1.dash"] "boards/d1.dash" (exDash "notes/a.md")
    (by decide) (by decide) rfl (by simp) (by simp) rfl
  exact ⟨by decide, by decide, rfl, rfl, h.2.2.1, h.2.2.2⟩

end Pebbledash
